import Mathlib

/-!
Verification of the failover decision logic of `msprm.py`, a small
PostgreSQL replication manager.  The Python source is shallowly embedded:
node dictionaries become a `Node` structure, Python's stable `list.sort`
with a key function becomes a stable insertion sort `sortByKey`, the
external collaborators (health probe, promotion command, replication
command) become boolean-valued oracles passed to the cycle function, and
the one place where the source can raise a `TypeError` (the failback
comparison `best_candidate.get("failover_order") <
current_leader.get("failover_order")`, which has no default and crashes on
a missing key) is modelled by `Option`.
-/

namespace Msprm

/-- A cluster node, mirroring the node dictionaries of `msprm.py`.
`failover_order` is `Option Int` because the source reads it with
`node.get("failover_order", 9999)` in the selectors (default 9999) but with
`node.get("failover_order")` (no default, i.e. `None` when absent) in the
failback comparison.  `role` is a plain string, as in the source. -/
structure Node where
  name : String
  host : String
  port : Int
  failover_order : Option Int
  role : String
  healthy : Bool
deriving DecidableEq, Repr

/-- The sort key used by both selectors: `n.get("failover_order", 9999)`. -/
def nodeKey (n : Node) : Int :=
  n.failover_order.getD 9999

/-- Insert `x` into a list sorted by `key`, before the first element whose
key is not smaller.  Together with `sortByKey` this reproduces the
stability of Python's `list.sort`: elements with equal keys keep their
original relative order. -/
def insOrd (key : α → Int) (x : α) : List α → List α
  | [] => [x]
  | y :: ys => if key y < key x then y :: insOrd key x ys else x :: y :: ys

/-- Stable sort by an integer key, modelling Python's `list.sort(key=...)`. -/
def sortByKey (key : α → Int) : List α → List α
  | [] => []
  | x :: xs => insOrd key x (sortByKey key xs)

/-- The first element of a list attaining the minimal key (ties go to the
earlier element).  `sortByKey` followed by taking the head computes exactly
this; the claims about the selectors are phrased through it. -/
def firstMinBy (key : α → Int) : List α → Option α
  | [] => none
  | x :: xs =>
    match firstMinBy key xs with
    | none => some x
    | some m => if key m < key x then some m else some x

/-- `get_current_leader` from `msprm.py`: filter to nodes whose role is
`"leader"`, return `None` if there are none, otherwise sort by
`failover_order` (default 9999) and return the first. -/
def get_current_leader (nodes : List Node) : Option Node :=
  let leaders := nodes.filter (fun n => n.role == "leader")
  if leaders.isEmpty then none
  else (sortByKey nodeKey leaders).head?

/-- `get_best_candidate` from `msprm.py`: filter to healthy nodes, return
`None` if there are none, otherwise sort by `failover_order` (default
9999) and return the first. -/
def get_best_candidate (nodes : List Node) : Option Node :=
  let healthy_nodes := nodes.filter (fun n => n.healthy)
  if healthy_nodes.isEmpty then none
  else (sortByKey nodeKey healthy_nodes).head?

/-- `update_roles` from `msprm.py`: the node named `new_leader_name`
becomes `"leader"`, every other node becomes `"replica"`. -/
def update_roles (nodes : List Node) (new_leader_name : String) : List Node :=
  nodes.map fun node =>
    if node.name = new_leader_name then { node with role := "leader" }
    else { node with role := "replica" }

/-- Python's `<` on two values read by `.get("failover_order")` with no
default: comparing with `None` on either side raises `TypeError`, modelled
as `none`. -/
def pyLt : Option Int → Option Int → Option Bool
  | some a, some b => some (Decidable.decide (a < b))
  | _, _ => none

/-- The health-aggregation step of the main loop: every node's transient
`healthy` flag is overwritten with the probe's answer for that node. -/
def apply_health (probe : Node → Bool) (nodes : List Node) : List Node :=
  nodes.map fun n => { n with healthy := probe n }

/-- Everything one iteration of the `while True` loop produces: the node
list (health flags and possibly roles updated), the promotion clock, the
decision flags, and the per-node replication-reconfiguration dispatches
with the executor's success flag for each (the source ignores those
flags, it only logs them). -/
structure CycleResult where
  nodes : List Node
  last_promotion_time : Int
  cooldown_blocked : Bool
  promoted : Option Node
  promotion_success : Bool
  reason : String
  reconf_results : List (Node × Bool)
deriving DecidableEq, Repr

/-- The decision block of the main loop (lines deciding
`promotion_needed`, the cooldown debug branch, and `reason`).  Returns
`(promotion_needed, cooldown_blocked, reason)`, or `none` when the Python
source would crash with a `TypeError` (failback comparison on a missing
`failover_order`). -/
def promotion_decision (failback_enabled : Bool) (promotion_cooldown : Int)
    (current_time last_promotion_time : Int)
    (current_leader best_candidate : Option Node) :
    Option (Bool × Bool × String) :=
  match current_leader with
  | none =>
    match best_candidate with
    | some _ => some (true, false, "현재 leader 비정상")
    | none => some (false, false, "")
  | some cl =>
    if cl.healthy = false then
      match best_candidate with
      | some _ => some (true, false, "현재 leader 비정상")
      | none => some (false, false, "")
    else
      match best_candidate with
      | some bc =>
        if failback_enabled then
          match pyLt bc.failover_order cl.failover_order with
          | none => none
          | some true =>
            if current_time - last_promotion_time ≥ promotion_cooldown then
              some (true, false, "failback: 우선순위가 더 높은 노드가 건강함")
            else
              some (false, true, "")
          | some false => some (false, false, "")
        else some (false, false, "")
      | none => some (false, false, "")

/-- One iteration of the main loop of `msprm.py`.  `probe` is the external
health check (`check_node_health`), `promote_ok` the success flag of the
external promotion command (`promote_node`), `reconf_ok` the success flag
of the external replication command (`reconfigure_replication`).  Returns
`none` when the iteration would crash (see `promotion_decision`). -/
def run_cycle (failback_enabled : Bool) (promotion_cooldown : Int)
    (probe : Node → Bool) (promote_ok : Node → Bool) (reconf_ok : Node → Bool)
    (current_time : Int) (nodes : List Node) (last_promotion_time : Int) :
    Option CycleResult :=
  let ns := apply_health probe nodes
  let current_leader := get_current_leader ns
  let best_candidate := get_best_candidate ns
  match promotion_decision failback_enabled promotion_cooldown
      current_time last_promotion_time current_leader best_candidate with
  | none => none
  | some (promotion_needed, blocked, reason) =>
    match promotion_needed, best_candidate with
    | true, some bc =>
      if promote_ok bc then
        let ns2 := update_roles ns bc.name
        let targets := ns2.filter (fun n => n.name != bc.name && n.healthy)
        some { nodes := ns2
               last_promotion_time := current_time
               cooldown_blocked := blocked
               promoted := some bc
               promotion_success := true
               reason := reason
               reconf_results := targets.map (fun n => (n, reconf_ok n)) }
      else
        some { nodes := ns
               last_promotion_time := last_promotion_time
               cooldown_blocked := blocked
               promoted := some bc
               promotion_success := false
               reason := reason
               reconf_results := [] }
    | _, _ =>
      some { nodes := ns
             last_promotion_time := last_promotion_time
             cooldown_blocked := blocked
             promoted := none
             promotion_success := false
             reason := ""
             reconf_results := [] }

/-! ### Properties of the stable sort and of `firstMinBy` -/

theorem insOrd_head? (key : α → Int) (x : α) (l : List α) :
    (insOrd key x l).head? =
      match l.head? with
      | none => some x
      | some h => if key h < key x then some h else some x := by
  cases l with
  | nil => rfl
  | cons y ys =>
    simp only [insOrd, List.head?_cons]
    split <;> simp_all

theorem sortByKey_head? (key : α → Int) (l : List α) :
    (sortByKey key l).head? = firstMinBy key l := by
  induction l with
  | nil => rfl
  | cons x xs ih =>
    simp only [sortByKey, firstMinBy, insOrd_head?, ih]

theorem firstMinBy_eq_none (key : α → Int) (l : List α) :
    firstMinBy key l = none ↔ l = [] := by
  cases l with
  | nil => simp [firstMinBy]
  | cons x xs =>
    simp only [firstMinBy]
    cases h : firstMinBy key xs with
    | none => simp
    | some m => dsimp only; split <;> simp

theorem firstMinBy_mem (key : α → Int) {l : List α} {m : α}
    (h : firstMinBy key l = some m) : m ∈ l := by
  induction l with
  | nil => simp [firstMinBy] at h
  | cons x xs ih =>
    simp only [firstMinBy] at h
    cases h' : firstMinBy key xs with
    | none => rw [h'] at h; simp at h; simp [h]
    | some m' =>
      rw [h'] at h
      by_cases hk : key m' < key x
      · simp [hk] at h; subst h; exact List.mem_cons_of_mem _ (ih h')
      · simp [hk] at h; simp [h]

theorem firstMinBy_min (key : α → Int) {l : List α} {m : α}
    (h : firstMinBy key l = some m) : ∀ x ∈ l, key m ≤ key x := by
  revert h
  induction l generalizing m with
  | nil => intro h; simp [firstMinBy] at h
  | cons x xs ih =>
    intro h
    simp only [firstMinBy] at h
    intro y hy
    cases h' : firstMinBy key xs with
    | none =>
      rw [h'] at h; simp at h; subst h
      rcases List.mem_cons.mp hy with hy | hy
      · simp [hy]
      · exact absurd ((firstMinBy_eq_none key xs).mp h' ▸ hy) (List.not_mem_nil y)
    | some m' =>
      rw [h'] at h
      rcases List.mem_cons.mp hy with hy | hy
      · subst hy
        by_cases hk : key m' < key y
        · simp [hk] at h; subst h; exact le_of_lt hk
        · simp [hk] at h; simp [h]
      · by_cases hk : key m' < key x
        · simp [hk] at h; subst h; exact ih h' y hy
        · simp [hk] at h; subst h
          exact le_trans (not_lt.mp hk) (ih h' y hy)

theorem firstMinBy_first (key : α → Int) {l : List α} {m : α}
    (h : firstMinBy key l = some m) :
    ∃ l₁ l₂, l = l₁ ++ m :: l₂ ∧ ∀ x ∈ l₁, key m < key x := by
  induction l with
  | nil => simp [firstMinBy] at h
  | cons x xs ih =>
    simp only [firstMinBy] at h
    cases h' : firstMinBy key xs with
    | none =>
      rw [h'] at h; simp at h; subst h
      exact ⟨[], xs, rfl, by simp⟩
    | some m' =>
      rw [h'] at h
      by_cases hk : key m' < key x
      · simp [hk] at h; subst h
        obtain ⟨l₁, l₂, heq, hlt⟩ := ih h'
        refine ⟨x :: l₁, l₂, by simp [heq], ?_⟩
        intro y hy
        rcases List.mem_cons.mp hy with hy | hy
        · subst hy; exact hk
        · exact hlt y hy
      · simp [hk] at h; subst h
        exact ⟨[], xs, rfl, by simp⟩

theorem firstMinBy_map (key₁ key₂ : α → Int) (f : α → α)
    (hk : ∀ a, key₂ (f a) = key₁ a) (l : List α) :
    firstMinBy key₂ (l.map f) = (firstMinBy key₁ l).map f := by
  induction l with
  | nil => rfl
  | cons x xs ih =>
    simp only [List.map_cons, firstMinBy, ih]
    cases h : firstMinBy key₁ xs with
    | none => simp
    | some m =>
      show (if key₂ (f m) < key₂ (f x) then some (f m) else some (f x)) =
        Option.map f (if key₁ m < key₁ x then some m else some x)
      rw [hk, hk]
      by_cases hc : key₁ m < key₁ x <;> simp [hc]

/-! ### Characterization of the two selectors -/

theorem get_best_candidate_eq (nodes : List Node) :
    get_best_candidate nodes =
      firstMinBy nodeKey (nodes.filter (fun n => n.healthy)) := by
  simp only [get_best_candidate]
  split
  · rename_i h
    rw [List.isEmpty_iff] at h
    rw [h]; rfl
  · exact sortByKey_head? nodeKey _

theorem get_current_leader_eq (nodes : List Node) :
    get_current_leader nodes =
      firstMinBy nodeKey (nodes.filter (fun n => n.role == "leader")) := by
  simp only [get_current_leader]
  split
  · rename_i h
    rw [List.isEmpty_iff] at h
    rw [h]; rfl
  · exact sortByKey_head? nodeKey _

/-- Convenience constructor for concrete example nodes. -/
def exNode (nm : String) (fo : Option Int) (rl : String) (hl : Bool) : Node :=
  { name := nm, host := nm, port := 5432, failover_order := fo, role := rl,
    healthy := hl }

/-- Claim C3: `get_best_candidate` returns `none` iff no node is healthy;
otherwise it returns a healthy node of minimal `failover_order` key among
the healthy nodes, the first such node in list order (stable sort), and in
particular never an unhealthy node. -/
theorem claim_C3_candidate_selector (nodes : List Node) :
    (get_best_candidate nodes = none ↔ ∀ n ∈ nodes, n.healthy = false) ∧
    (∀ c, get_best_candidate nodes = some c →
      c ∈ nodes ∧ c.healthy = true ∧
      (∀ n ∈ nodes, n.healthy = true → nodeKey c ≤ nodeKey n) ∧
      ∃ l₁ l₂, nodes.filter (fun n => n.healthy) = l₁ ++ c :: l₂ ∧
        ∀ x ∈ l₁, nodeKey c < nodeKey x) := by
  rw [get_best_candidate_eq]
  constructor
  · rw [firstMinBy_eq_none, List.filter_eq_nil_iff]
    simp
  · intro c hc
    have hmem := firstMinBy_mem nodeKey hc
    have hmem' := List.mem_filter.mp hmem
    refine ⟨hmem'.1, by simpa using hmem'.2, ?_, firstMinBy_first nodeKey hc⟩
    intro n hn hh
    exact firstMinBy_min nodeKey hc n (List.mem_filter.mpr ⟨hn, by simp [hh]⟩)

/-- Witness for C3 on the worked example of the spec: in a cluster where
`n1` is unhealthy and `n2`, `n3` are healthy, the selector picks `n2`,
which is a healthy member of minimal key. -/
theorem claim_C3_candidate_selector_witness :
    exNode "n2" (some 2) "replica" true
      ∈ [exNode "n1" (some 1) "leader" false,
         exNode "n2" (some 2) "replica" true,
         exNode "n3" (some 3) "replica" true] ∧
    (exNode "n2" (some 2) "replica" true).healthy = true :=
  ⟨((claim_C3_candidate_selector _).2 _ (by decide)).1,
   ((claim_C3_candidate_selector
      [exNode "n1" (some 1) "leader" false,
       exNode "n2" (some 2) "replica" true,
       exNode "n3" (some 3) "replica" true]).2 _ (by decide)).2.1⟩

/-- Claim C4: `get_current_leader` returns `none` iff no node has role
`"leader"`; otherwise it returns a node with role `"leader"` of minimal
`failover_order` key among those, the first such node in list order
(deterministic stable tie-break), and it is a total function, so a cluster
with several declared leaders is resolved without an error. -/
theorem claim_C4_leader_locator (nodes : List Node) :
    (get_current_leader nodes = none ↔ ∀ n ∈ nodes, n.role ≠ "leader") ∧
    (∀ c, get_current_leader nodes = some c →
      c ∈ nodes ∧ c.role = "leader" ∧
      (∀ n ∈ nodes, n.role = "leader" → nodeKey c ≤ nodeKey n) ∧
      ∃ l₁ l₂, nodes.filter (fun n => n.role == "leader") = l₁ ++ c :: l₂ ∧
        ∀ x ∈ l₁, nodeKey c < nodeKey x) := by
  rw [get_current_leader_eq]
  constructor
  · rw [firstMinBy_eq_none, List.filter_eq_nil_iff]
    simp
  · intro c hc
    have hmem := firstMinBy_mem nodeKey hc
    have hmem' := List.mem_filter.mp hmem
    refine ⟨hmem'.1, by simpa using hmem'.2, ?_, firstMinBy_first nodeKey hc⟩
    intro n hn hh
    exact firstMinBy_min nodeKey hc n (List.mem_filter.mpr ⟨hn, by simp [hh]⟩)

/-- Witness for C4 on a misconfigured cluster with two declared leaders:
the locator returns the leader with the lower order, without error. -/
theorem claim_C4_leader_locator_witness :
    exNode "a" (some 1) "leader" true
      ∈ [exNode "b" (some 2) "leader" true,
         exNode "a" (some 1) "leader" true] ∧
    (exNode "a" (some 1) "leader" true).role = "leader" :=
  ⟨((claim_C4_leader_locator _).2 _ (by decide)).1,
   ((claim_C4_leader_locator
      [exNode "b" (some 2) "leader" true,
       exNode "a" (some 1) "leader" true]).2 _ (by decide)).2.1⟩

/-- In a list of nodes with pairwise distinct names, at most one node
bears any given name. -/
theorem countP_name_le_one (nodes : List Node) (nm : String)
    (huniq : nodes.Pairwise (fun a b => a.name ≠ b.name)) :
    nodes.countP (fun n => n.name == nm) ≤ 1 := by
  induction nodes with
  | nil => simp
  | cons x xs ih =>
    rcases List.pairwise_cons.mp huniq with ⟨hx, hxs⟩
    rw [List.countP_cons]
    by_cases h : x.name = nm
    · have h0 : xs.countP (fun n => n.name == nm) = 0 := by
        rw [List.countP_eq_zero]
        intro b hb
        simp only [beq_iff_eq]
        intro hbnm
        exact hx b hb (by rw [h, hbnm])
      simp [h, h0]
    · simpa [h] using ih hxs

/-- Claim C5: after `update_roles nodes nm` on a list with pairwise
distinct names, at most one node has role `"leader"`; a node has role
`"leader"` exactly when its name is the promoted name, and every other
node has role `"replica"`. -/
theorem claim_C5_role_updater (nodes : List Node) (nm : String)
    (huniq : nodes.Pairwise (fun a b => a.name ≠ b.name)) :
    (update_roles nodes nm).countP (fun n => n.role == "leader") ≤ 1 ∧
    (∀ n ∈ update_roles nodes nm, (n.role = "leader" ↔ n.name = nm)) ∧
    (∀ n ∈ update_roles nodes nm, n.name ≠ nm → n.role = "replica") := by
  refine ⟨?_, ?_, ?_⟩
  · rw [update_roles, List.countP_map]
    have hcong : ∀ x ∈ nodes,
        (((fun n => n.role == "leader") ∘ fun node =>
          if node.name = nm then { node with role := "leader" }
          else { node with role := "replica" }) x = true ↔
          (x.name == nm) = true) := by
      intro x _
      by_cases h : x.name = nm <;> simp [h]
    rw [List.countP_congr hcong]
    exact countP_name_le_one nodes nm huniq
  · intro n hn
    rcases List.mem_map.mp hn with ⟨x, _, hx⟩
    by_cases h : x.name = nm
    · rw [if_pos h] at hx
      constructor
      · intro _; rw [← hx]; exact h
      · intro _; rw [← hx]
    · rw [if_neg h] at hx
      constructor
      · intro hr; rw [← hx] at hr; simp at hr
      · intro hnm; rw [← hx] at hnm; exact absurd hnm h
  · intro n hn hnm
    rcases List.mem_map.mp hn with ⟨x, _, hx⟩
    by_cases h : x.name = nm
    · rw [if_pos h] at hx; rw [← hx] at hnm; exact absurd h hnm
    · rw [if_neg h] at hx; rw [← hx]

/-- Witness for C5: promoting `"n2"` in the spec's three-node cluster
leaves at most one leader. -/
theorem claim_C5_role_updater_witness :
    (update_roles
      [exNode "n1" (some 1) "leader" false,
       exNode "n2" (some 2) "replica" true,
       exNode "n3" (some 3) "replica" true] "n2").countP
      (fun n => n.role == "leader") ≤ 1 :=
  (claim_C5_role_updater _ "n2" (by decide)).1

/-! ### Facts about a single cycle -/

theorem apply_health_map_role (probe : Node → Bool) (l : List Node) :
    (apply_health probe l).map (fun n => n.role) = l.map (fun n => n.role) := by
  simp only [apply_health, List.map_map]
  rfl

/-- Whenever the annotated cluster has a healthy current leader and the
clock is inside the cooldown window, a cycle that completes makes no
promotion attempt: every branch of the healthy-leader case either finds no
reason to promote or is cooldown-blocked. -/
theorem cooldown_blocks (fb : Bool) (cd : Int)
    (probe pok rok : Node → Bool) (now : Int) (nodes : List Node) (lpt : Int)
    (r : CycleResult) (L : Node)
    (hL : get_current_leader (apply_health probe nodes) = some L)
    (hLh : L.healthy = true)
    (hcd : now - lpt < cd)
    (hrun : run_cycle fb cd probe pok rok now nodes lpt = some r) :
    r.promoted = none := by
  simp only [run_cycle, hL] at hrun
  cases hc : get_best_candidate (apply_health probe nodes) with
  | none =>
    rw [hc] at hrun
    simp only [promotion_decision, hLh] at hrun
    cases hrun
    rfl
  | some c =>
    rw [hc] at hrun
    simp only [promotion_decision, hLh] at hrun
    by_cases hfb : fb = true
    · rw [hfb] at hrun
      simp only [if_true] at hrun
      cases hpy : pyLt c.failover_order L.failover_order with
      | none => rw [hpy] at hrun; cases hrun
      | some b =>
        rw [hpy] at hrun
        cases b with
        | true =>
          have : ¬ now - lpt ≥ cd := by omega
          simp only [this, if_false] at hrun
          cases hrun
          rfl
        | false =>
          simp only at hrun
          cases hrun
          rfl
    · simp only [hfb, if_false] at hrun
      cases hrun
      rfl

/-- Claim C2: whenever no current leader exists, or the current leader is
unhealthy, and a healthy candidate exists, the cycle requests a promotion
of that candidate with reason "현재 leader 비정상" ("leader unhealthy"),
for every value of the promotion clock and cooldown — the emergency path
never consults the cooldown timer. -/
theorem claim_C2_emergency_promotion (fb : Bool) (cd : Int)
    (probe pok rok : Node → Bool) (now : Int) (nodes : List Node) (lpt : Int)
    (c : Node)
    (hdown : get_current_leader (apply_health probe nodes) = none ∨
      ∃ L, get_current_leader (apply_health probe nodes) = some L ∧
        L.healthy = false)
    (hc : get_best_candidate (apply_health probe nodes) = some c) :
    ∃ r, run_cycle fb cd probe pok rok now nodes lpt = some r ∧
      r.promoted = some c ∧ r.reason = "현재 leader 비정상" := by
  simp only [run_cycle, hc]
  rcases hdown with h | ⟨L, hL, hLh⟩
  · rw [h]
    simp only [promotion_decision]
    by_cases hp : pok c = true <;> simp [hp]
  · rw [hL]
    simp only [promotion_decision, hLh]
    by_cases hp : pok c = true <;> simp [hp]

/-- Witness for C2 on the spec's Scenario A: leader `n1` unhealthy,
healthy replicas `n2`, `n3`; the candidate `n2` is promoted although the
clock is deep inside the cooldown window. -/
theorem claim_C2_emergency_promotion_witness :
    ∃ r, run_cycle true 30 (fun n => n.name != "n1") (fun _ => true)
      (fun _ => true) 100
      [exNode "n1" (some 1) "leader" false,
       exNode "n2" (some 2) "replica" false,
       exNode "n3" (some 3) "replica" false] 99 = some r ∧
      r.promoted = some (exNode "n2" (some 2) "replica" true) ∧
      r.reason = "현재 leader 비정상" :=
  claim_C2_emergency_promotion true 30 (fun n => n.name != "n1")
    (fun _ => true) (fun _ => true) 100 _ 99 _
    (Or.inr ⟨exNode "n1" (some 1) "leader" false, by decide, by decide⟩)
    (by decide)

/-- Claim C1: with a healthy current leader (both the leader's and the
best candidate's `failover_order` present), a promotion is requested iff
failback is enabled, the best candidate's order is strictly below the
leader's, and `now - lastPromotionTime` is at least the cooldown; inside
the cooldown window the failback is blocked and the cycle takes no action;
and when no healthy node has an order strictly below the leader's, no
promotion occurs at all. -/
theorem claim_C1_failback_policy (fb : Bool) (cd : Int)
    (probe pok rok : Node → Bool) (now : Int) (nodes : List Node) (lpt : Int)
    (L c : Node) (co lo : Int)
    (hL : get_current_leader (apply_health probe nodes) = some L)
    (hLh : L.healthy = true)
    (hc : get_best_candidate (apply_health probe nodes) = some c)
    (hco : c.failover_order = some co)
    (hlo : L.failover_order = some lo) :
    ∃ r, run_cycle fb cd probe pok rok now nodes lpt = some r ∧
      (r.promoted.isSome = true ↔ (fb = true ∧ co < lo ∧ cd ≤ now - lpt)) ∧
      (now - lpt < cd → r.promoted = none ∧
        r.nodes = apply_health probe nodes ∧
        r.last_promotion_time = lpt ∧ r.reconf_results = []) ∧
      ((∀ n ∈ apply_health probe nodes, n.healthy = true → ¬ nodeKey n < lo) →
        r.promoted = none) := by
  have hcmem : c ∈ apply_health probe nodes ∧ c.healthy = true := by
    have h := firstMinBy_mem nodeKey (get_best_candidate_eq _ ▸ hc)
    have h' := List.mem_filter.mp h
    exact ⟨h'.1, h'.2⟩
  by_cases hfb : fb = true
  · by_cases hlt : co < lo
    · by_cases hcd : now - lpt ≥ cd
      · have hdec : promotion_decision fb cd now lpt (some L) (some c) =
            some (true, false, "failback: 우선순위가 더 높은 노드가 건강함") := by
          simp [promotion_decision, hLh, pyLt, hco, hlo, hlt, hfb, hcd]
        simp only [run_cycle, hL, hc, hdec]
        by_cases hp : pok c = true
        · rw [if_pos hp]
          refine ⟨_, rfl, ?_, ?_, ?_⟩
          · exact ⟨fun _ => ⟨hfb, hlt, by omega⟩, fun _ => rfl⟩
          · intro hlt2; exact absurd hlt2 (by omega)
          · intro hall
            exact absurd hlt
              (by simpa [nodeKey, hco] using hall c hcmem.1 hcmem.2)
        · rw [if_neg hp]
          refine ⟨_, rfl, ?_, ?_, ?_⟩
          · exact ⟨fun _ => ⟨hfb, hlt, by omega⟩, fun _ => rfl⟩
          · intro hlt2; exact absurd hlt2 (by omega)
          · intro hall
            exact absurd hlt
              (by simpa [nodeKey, hco] using hall c hcmem.1 hcmem.2)
      · have hdec : promotion_decision fb cd now lpt (some L) (some c) =
            some (false, true, "") := by
          simp [promotion_decision, hLh, pyLt, hco, hlo, hlt, hfb, hcd]
        simp only [run_cycle, hL, hc, hdec]
        refine ⟨_, rfl, ?_, ?_, ?_⟩
        · constructor
          · intro h; simp at h
          · rintro ⟨-, -, h3⟩; exact absurd h3 (by omega)
        · intro _; exact ⟨rfl, rfl, rfl, rfl⟩
        · intro _; rfl
    · have hdec : promotion_decision fb cd now lpt (some L) (some c) =
          some (false, false, "") := by
        simp [promotion_decision, hLh, pyLt, hco, hlo, hlt, hfb]
      simp only [run_cycle, hL, hc, hdec]
      refine ⟨_, rfl, ?_, ?_, ?_⟩
      · constructor
        · intro h; simp at h
        · rintro ⟨-, h2, -⟩; exact absurd h2 hlt
      · intro _; exact ⟨rfl, rfl, rfl, rfl⟩
      · intro _; rfl
  · have hdec : promotion_decision fb cd now lpt (some L) (some c) =
        some (false, false, "") := by
      simp [promotion_decision, hLh, pyLt, hco, hlo, hfb]
    simp only [run_cycle, hL, hc, hdec]
    refine ⟨_, rfl, ?_, ?_, ?_⟩
    · constructor
      · intro h; simp at h
      · rintro ⟨h1, -, -⟩; exact absurd h1 hfb
    · intro _; exact ⟨rfl, rfl, rfl, rfl⟩
    · intro _; rfl

/-- Witness for C1 on the spec's Scenario C: leader `n1` healthy, healthy
`n0` with lower order, `now − lastPromotionTime = 5 < 30 = cooldown`: the
failback is blocked, nothing changes. -/
theorem claim_C1_failback_policy_witness :
    ∃ r, run_cycle true 30 (fun _ => true) (fun _ => true) (fun _ => true) 5
      [exNode "n0" (some 0) "replica" false,
       exNode "n1" (some 1) "leader" false,
       exNode "n2" (some 2) "replica" false] 0 = some r ∧
      (r.promoted.isSome = true ↔ (true = true ∧ (0:Int) < 1 ∧ (30:Int) ≤ 5 - 0)) ∧
      ((5:Int) - 0 < 30 → r.promoted = none ∧
        r.nodes = apply_health (fun _ => true)
          [exNode "n0" (some 0) "replica" false,
           exNode "n1" (some 1) "leader" false,
           exNode "n2" (some 2) "replica" false] ∧
        r.last_promotion_time = 0 ∧ r.reconf_results = []) ∧
      ((∀ n ∈ apply_health (fun _ => true)
          [exNode "n0" (some 0) "replica" false,
           exNode "n1" (some 1) "leader" false,
           exNode "n2" (some 2) "replica" false],
          n.healthy = true → ¬ nodeKey n < 1) → r.promoted = none) :=
  claim_C1_failback_policy true 30 (fun _ => true) (fun _ => true)
    (fun _ => true) 5 _ 0
    (exNode "n1" (some 1) "leader" true) (exNode "n0" (some 0) "replica" true)
    0 1 (by decide) (by decide) (by decide) (by decide) (by decide)

/-- Claim C6: when the promotion command fails, the cycle leaves every
node's role unchanged, leaves `last_promotion_time` unchanged, and
dispatches no replication reconfiguration; the next cycle starts from the
same state. -/
theorem claim_C6_promotion_failure_atomic (fb : Bool) (cd : Int)
    (probe pok rok : Node → Bool) (now : Int) (nodes : List Node) (lpt : Int)
    (r : CycleResult) (c : Node)
    (hrun : run_cycle fb cd probe pok rok now nodes lpt = some r)
    (hp : r.promoted = some c)
    (hf : r.promotion_success = false) :
    r.nodes.map (fun n => n.role) = nodes.map (fun n => n.role) ∧
    r.last_promotion_time = lpt ∧
    r.reconf_results = [] := by
  simp only [run_cycle] at hrun
  split at hrun
  · cases hrun
  · split at hrun
    · split at hrun
      · cases hrun
        simp at hf
      · cases hrun
        exact ⟨apply_health_map_role probe nodes, rfl, rfl⟩
    · cases hrun
      simp at hp

/-- Cluster used by the C6 witness: leader `n1` down, `n2` healthy. -/
def c6Nodes : List Node :=
  [exNode "n1" (some 1) "leader" false, exNode "n2" (some 2) "replica" false]

/-- The concrete cycle outcome of the C6 witness: emergency promotion of
`n2` attempted, command failed, nothing changed. -/
def c6Result : CycleResult :=
  { nodes := [exNode "n1" (some 1) "leader" false,
              exNode "n2" (some 2) "replica" true]
    last_promotion_time := 0
    cooldown_blocked := false
    promoted := some (exNode "n2" (some 2) "replica" true)
    promotion_success := false
    reason := "현재 leader 비정상"
    reconf_results := [] }

/-- Witness for C6: an attempted emergency promotion whose command fails
changes nothing. -/
theorem claim_C6_promotion_failure_atomic_witness :
    c6Result.nodes.map (fun n => n.role) = c6Nodes.map (fun n => n.role) ∧
    c6Result.last_promotion_time = 0 ∧
    c6Result.reconf_results = [] :=
  claim_C6_promotion_failure_atomic true 30 (fun n => n.name != "n1")
    (fun _ => false) (fun _ => true) 100 c6Nodes 0 c6Result
    (exNode "n2" (some 2) "replica" true) (by decide) (by decide) (by decide)

/-- Claim C7: every successful promotion — on either decision path,
including the cooldown-exempt emergency one — sets `last_promotion_time`
to the current time, and this clock then blocks any failback in a later
cycle that starts (with a healthy leader) within `cooldown` of it. -/
theorem claim_C7_clock_reset_on_success (fb : Bool) (cd : Int)
    (probe pok rok : Node → Bool) (now : Int) (nodes : List Node) (lpt : Int)
    (r : CycleResult) (c : Node)
    (hrun : run_cycle fb cd probe pok rok now nodes lpt = some r)
    (hp : r.promoted = some c)
    (hs : r.promotion_success = true) :
    r.last_promotion_time = now ∧
    (∀ (probe₂ pok₂ rok₂ : Node → Bool) (now₂ : Int) (r₂ : CycleResult)
      (L : Node),
      get_current_leader (apply_health probe₂ r.nodes) = some L →
      L.healthy = true →
      now₂ - now < cd →
      run_cycle fb cd probe₂ pok₂ rok₂ now₂ r.nodes r.last_promotion_time
        = some r₂ →
      r₂.promoted = none) := by
  have hl : r.last_promotion_time = now := by
    simp only [run_cycle] at hrun
    split at hrun
    · cases hrun
    · split at hrun
      · split at hrun
        · cases hrun; rfl
        · cases hrun; simp at hs
      · cases hrun; simp at hp
  refine ⟨hl, ?_⟩
  intro probe₂ pok₂ rok₂ now₂ r₂ L hL hLh hcd hrun₂
  exact cooldown_blocks fb cd probe₂ pok₂ rok₂ now₂ r.nodes
    r.last_promotion_time r₂ L hL hLh (by omega) hrun₂

/-- Cluster used by the C7 witness: leader `n1` down, `n2` healthy. -/
def c7Nodes : List Node :=
  [exNode "n1" (some 1) "leader" false, exNode "n2" (some 2) "replica" false]

/-- Outcome of the C7 witness's first cycle: emergency promotion of `n2`
succeeded at time 100; `n1` is down, so nothing is reconfigured. -/
def c7Result : CycleResult :=
  { nodes := [exNode "n1" (some 1) "replica" false,
              exNode "n2" (some 2) "leader" true]
    last_promotion_time := 100
    cooldown_blocked := false
    promoted := some (exNode "n2" (some 2) "replica" true)
    promotion_success := true
    reason := "현재 leader 비정상"
    reconf_results := [] }

/-- Outcome of the C7 witness's second cycle at time 120: `n1` is back and
has higher priority, but 120 − 100 < 30, so the failback is blocked. -/
def c7Result2 : CycleResult :=
  { nodes := [exNode "n1" (some 1) "replica" true,
              exNode "n2" (some 2) "leader" true]
    last_promotion_time := 100
    cooldown_blocked := true
    promoted := none
    promotion_success := false
    reason := ""
    reconf_results := [] }

/-- Witness for C7: the successful emergency promotion at time 100 resets
the clock, and the failback attempt at time 120 is blocked by it. -/
theorem claim_C7_clock_reset_on_success_witness :
    c7Result.last_promotion_time = 100 ∧ c7Result2.promoted = none :=
  ⟨(claim_C7_clock_reset_on_success true 30 (fun n => n.name != "n1")
      (fun _ => true) (fun _ => true) 100 c7Nodes 0 c7Result
      (exNode "n2" (some 2) "replica" true)
      (by decide) (by decide) (by decide)).1,
   (claim_C7_clock_reset_on_success true 30 (fun n => n.name != "n1")
      (fun _ => true) (fun _ => true) 100 c7Nodes 0 c7Result
      (exNode "n2" (some 2) "replica" true)
      (by decide) (by decide) (by decide)).2
     (fun _ => true) (fun _ => true) (fun _ => true) 120 c7Result2
     (exNode "n2" (some 2) "leader" true)
     (by decide) (by decide) (by decide) (by decide)⟩

theorem map_fst_pair (f : α → Bool) (l : List α) :
    (l.map (fun n => (n, f n))).map Prod.fst = l := by
  rw [List.map_map]
  exact List.map_id _

/-- Everything a cycle produces apart from the ignored per-node success
flags of the replication commands. -/
def cycleCore (r : CycleResult) :
    List Node × Int × Bool × Option Node × Bool × String × List Node :=
  (r.nodes, r.last_promotion_time, r.cooldown_blocked, r.promoted,
   r.promotion_success, r.reason, r.reconf_results.map Prod.fst)

/-- The outcomes of the replication commands feed back into nothing: two
cycles differing only in `reconf_ok` agree on every other output. -/
theorem run_cycle_core_rok (fb : Bool) (cd : Int)
    (probe pok rok rok₂ : Node → Bool)
    (now : Int) (nodes : List Node) (lpt : Int) :
    (run_cycle fb cd probe pok rok now nodes lpt).map cycleCore =
    (run_cycle fb cd probe pok rok₂ now nodes lpt).map cycleCore := by
  simp only [run_cycle]
  cases promotion_decision fb cd now lpt
      (get_current_leader (apply_health probe nodes))
      (get_best_candidate (apply_health probe nodes)) with
  | none => rfl
  | some trip =>
    obtain ⟨needed, blocked, reason⟩ := trip
    cases needed with
    | false => cases get_best_candidate (apply_health probe nodes) <;> rfl
    | true =>
      cases get_best_candidate (apply_health probe nodes) with
      | none => rfl
      | some bc =>
        dsimp only
        by_cases hpok : pok bc = true
        · rw [if_pos hpok, if_pos hpok]
          simp [cycleCore, map_fst_pair]
        · rw [if_neg hpok, if_neg hpok]

/-- Claim C8: after a successful promotion of `c`, replication
reconfiguration is dispatched exactly to the nodes other than `c` that are
marked healthy, and the per-node success or failure of those commands
influences neither the dispatch list nor the promoted roles nor the
clock. -/
theorem claim_C8_replication_dispatch (fb : Bool) (cd : Int)
    (probe pok rok : Node → Bool) (now : Int) (nodes : List Node) (lpt : Int)
    (r : CycleResult) (c : Node)
    (hrun : run_cycle fb cd probe pok rok now nodes lpt = some r)
    (hp : r.promoted = some c)
    (hs : r.promotion_success = true) :
    r.reconf_results.map Prod.fst =
      r.nodes.filter (fun n => n.name != c.name && n.healthy) ∧
    (∀ n, n ∈ r.reconf_results.map Prod.fst ↔
      (n ∈ r.nodes ∧ n.name ≠ c.name ∧ n.healthy = true)) ∧
    (∀ rok₂ : Node → Bool, ∃ r₂,
      run_cycle fb cd probe pok rok₂ now nodes lpt = some r₂ ∧
      r₂.nodes = r.nodes ∧
      r₂.last_promotion_time = r.last_promotion_time ∧
      r₂.promoted = r.promoted ∧
      r₂.promotion_success = r.promotion_success ∧
      r₂.reconf_results.map Prod.fst = r.reconf_results.map Prod.fst) := by
  have hcore : ∀ rok₂ : Node → Bool, ∃ r₂,
      run_cycle fb cd probe pok rok₂ now nodes lpt = some r₂ ∧
      cycleCore r₂ = cycleCore r := by
    intro rok₂
    have h := run_cycle_core_rok fb cd probe pok rok rok₂ now nodes lpt
    rw [hrun] at h
    cases h2 : run_cycle fb cd probe pok rok₂ now nodes lpt with
    | none => rw [h2] at h; simp at h
    | some r₂ =>
      rw [h2] at h
      simp only [Option.map_some'] at h
      exact ⟨r₂, rfl, (Option.some.injEq _ _ ▸ h).symm⟩
  have hinv : r.reconf_results.map Prod.fst =
      r.nodes.filter (fun n => n.name != c.name && n.healthy) := by
    simp only [run_cycle] at hrun
    split at hrun
    · cases hrun
    · split at hrun
      · split at hrun
        · cases hrun
          dsimp only at hp ⊢
          rw [Option.some.injEq] at hp
          subst hp
          exact map_fst_pair rok _
        · cases hrun
          simp at hs
      · cases hrun
        simp at hp
  refine ⟨hinv, ?_, ?_⟩
  · intro n
    rw [hinv]
    simp [List.mem_filter, bne_iff_ne, and_assoc]
  · intro rok₂
    obtain ⟨r₂, h2, hcc⟩ := hcore rok₂
    simp only [cycleCore, Prod.mk.injEq] at hcc
    exact ⟨r₂, h2, hcc.1, hcc.2.1, hcc.2.2.2.1, hcc.2.2.2.2.1, hcc.2.2.2.2.2.2⟩

/-- Cluster used by the C8 witness. -/
def c8Nodes : List Node :=
  [exNode "n1" (some 1) "leader" false,
   exNode "n2" (some 2) "replica" false,
   exNode "n3" (some 3) "replica" false]

/-- Outcome of the C8 witness cycle: `n1` is down, `n2` and `n3` healthy;
`n2` is promoted and only `n3` is reconfigured (`n1` is skipped as
unhealthy). -/
def c8Result : CycleResult :=
  { nodes := [exNode "n1" (some 1) "replica" false,
              exNode "n2" (some 2) "leader" true,
              exNode "n3" (some 3) "replica" true]
    last_promotion_time := 100
    cooldown_blocked := false
    promoted := some (exNode "n2" (some 2) "replica" true)
    promotion_success := true
    reason := "현재 leader 비정상"
    reconf_results := [(exNode "n3" (some 3) "replica" true, true)] }

/-- Witness for C8: the dispatch list is exactly the healthy non-leader
`n3`. -/
theorem claim_C8_replication_dispatch_witness :
    c8Result.reconf_results.map Prod.fst =
      c8Result.nodes.filter
        (fun n => n.name != (exNode "n2" (some 2) "replica" true).name
          && n.healthy) :=
  (claim_C8_replication_dispatch true 30 (fun n => n.name != "n1")
    (fun _ => true) (fun _ => true) 100 c8Nodes 0 c8Result
    (exNode "n2" (some 2) "replica" true)
    (by decide) (by decide) (by decide)).1

/-! ### Helpers for the two-cycle (idempotence) analysis -/

/-- With no candidate, the decision is always "no action", whatever the
leader situation. -/
theorem decision_none_candidate (fb : Bool) (cd now lpt : Int)
    (cl : Option Node) :
    promotion_decision fb cd now lpt cl none = some (false, false, "") := by
  cases cl with
  | none => rfl
  | some x =>
    cases hx : x.healthy <;> simp [promotion_decision, hx]

/-- With a healthy leader, a cycle makes no promotion attempt as soon as,
for the best candidate (when there is one), failback is off or the
failback comparison comes out false. -/
theorem promoted_none_of_no_better (fb : Bool) (cd : Int)
    (probe pok rok : Node → Bool) (now : Int) (ns : List Node) (lpt : Int)
    (r : CycleResult) (L : Node)
    (hL : get_current_leader (apply_health probe ns) = some L)
    (hLh : L.healthy = true)
    (hrun : run_cycle fb cd probe pok rok now ns lpt = some r)
    (hnb : ∀ c, get_best_candidate (apply_health probe ns) = some c →
      fb = false ∨ pyLt c.failover_order L.failover_order = some false) :
    r.promoted = none := by
  simp only [run_cycle, hL] at hrun
  cases hbc : get_best_candidate (apply_health probe ns) with
  | none =>
    rw [hbc, decision_none_candidate] at hrun
    dsimp only at hrun
    cases hrun; rfl
  | some c =>
    rw [hbc] at hrun
    have hdec : promotion_decision fb cd now lpt (some L) (some c) =
        some (false, false, "") := by
      rcases hnb c hbc with hfb | hpy
      · simp [promotion_decision, hLh, hfb]
      · simp [promotion_decision, hLh, hpy]
    rw [hdec] at hrun
    dsimp only at hrun
    cases hrun; rfl

/-- When failback is on and the failback comparison hits a missing
`failover_order` on either side, the cycle crashes (Python `TypeError`). -/
theorem run_cycle_crash (fb : Bool) (cd : Int)
    (probe pok rok : Node → Bool) (now : Int) (ns : List Node) (lpt : Int)
    (L c : Node)
    (hL : get_current_leader (apply_health probe ns) = some L)
    (hLh : L.healthy = true)
    (hbc : get_best_candidate (apply_health probe ns) = some c)
    (hfb : fb = true)
    (hpy : pyLt c.failover_order L.failover_order = none) :
    run_cycle fb cd probe pok rok now ns lpt = none := by
  simp only [run_cycle, hL, hbc, promotion_decision, hLh, hfb, hpy]
  simp

theorem filter_map_comm (p : α → Bool) (f : α → α) (l : List α)
    (hp : ∀ a, p (f a) = p a) :
    (l.map f).filter p = (l.filter p).map f := by
  induction l with
  | nil => rfl
  | cons x xs ih =>
    simp only [List.map_cons, List.filter_cons, hp]
    cases p x <;> simp [ih]

/-- The candidate selector commutes with a per-node rewrite that keeps
`healthy` and the sort key (such as a role reassignment). -/
theorem get_best_candidate_map (f : Node → Node)
    (hh : ∀ n, (f n).healthy = n.healthy)
    (hk : ∀ n, nodeKey (f n) = nodeKey n) (l : List Node) :
    get_best_candidate (l.map f) = (get_best_candidate l).map f := by
  rw [get_best_candidate_eq, get_best_candidate_eq,
    filter_map_comm _ f l hh, firstMinBy_map nodeKey nodeKey f hk]

/-- In a list with pairwise distinct names, filtering for a member's name
yields exactly that member. -/
theorem filter_name_eq_self (ns : List Node) (c : Node)
    (huniq : ns.Pairwise (fun a b => a.name ≠ b.name)) (hc : c ∈ ns) :
    ns.filter (fun n => n.name == c.name) = [c] := by
  induction ns with
  | nil => cases hc
  | cons x xs ih =>
    rcases List.pairwise_cons.mp huniq with ⟨hx, hxs⟩
    rcases List.mem_cons.mp hc with rfl | hc'
    · have h0 : xs.filter (fun n => n.name == c.name) = [] := by
        rw [List.filter_eq_nil_iff]
        intro b hb
        simp only [beq_iff_eq]
        intro hb'
        exact hx b hb hb'.symm
      rw [List.filter_cons]
      simp [h0]
    · have hxc : x.name ≠ c.name := hx c hc'
      rw [List.filter_cons]
      simp only [beq_iff_eq, hxc, decide_eq_true_eq, if_neg hxc]
      exact ih hxs hc'

/-- Filtering the updated roles for leaders picks out exactly the nodes
bearing the promoted name, each with its role rewritten. -/
theorem update_roles_leader_filter (ns : List Node) (nm : String) :
    (update_roles ns nm).filter (fun n => n.role == "leader") =
      (ns.filter (fun n => n.name == nm)).map
        (fun node => { node with role := "leader" }) := by
  induction ns with
  | nil => rfl
  | cons x xs ih =>
    simp only [update_roles, List.map_cons, List.filter_cons] at ih ⊢
    by_cases h : x.name = nm
    · rw [if_pos h]
      have hb : (x.name == nm) = true := by simp [h]
      simp [hb, ih]
    · rw [if_neg h]
      have hb : (x.name == nm) = false := by simp [h]
      simp [hb, ih]

/-- After `update_roles ns c.name` with `c` a member of a uniquely-named
list, the leader locator returns exactly `c` with its role rewritten. -/
theorem get_current_leader_update_roles (ns : List Node) (c : Node)
    (huniq : ns.Pairwise (fun a b => a.name ≠ b.name)) (hc : c ∈ ns) :
    get_current_leader (update_roles ns c.name) =
      some { c with role := "leader" } := by
  rw [get_current_leader_eq, update_roles_leader_filter,
    filter_name_eq_self ns c huniq hc]
  rfl

/-- Health annotation does not touch names, so it preserves name
uniqueness. -/
theorem apply_health_pairwise (probe : Node → Bool) (nodes : List Node)
    (h : nodes.Pairwise (fun a b => a.name ≠ b.name)) :
    (apply_health probe nodes).Pairwise (fun a b => a.name ≠ b.name) := by
  rw [apply_health, List.pairwise_map]
  exact h

/-- After a successful promotion of candidate `c` in a uniquely-named
cluster, a second cycle whose probe reproduces the stored health flags
promotes nothing (or crashes): the new leader is itself the best
candidate, so the failback comparison cannot come out true. -/
theorem second_cycle_after_success (fb : Bool) (cd : Int)
    (probe : Node → Bool) (nodes : List Node)
    (c : Node) (r : CycleResult)
    (huniq : nodes.Pairwise (fun a b => a.name ≠ b.name))
    (hcand : get_best_candidate (apply_health probe nodes) = some c)
    (hnodes : r.nodes = update_roles (apply_health probe nodes) c.name)
    (probe₂ pok₂ rok₂ : Node → Bool) (now₂ : Int)
    (hsame : apply_health probe₂ r.nodes = r.nodes) :
    ∀ r₂, run_cycle fb cd probe₂ pok₂ rok₂ now₂ r.nodes r.last_promotion_time
      = some r₂ → r₂.promoted = none := by
  intro r₂ hrun₂
  have h1 : firstMinBy nodeKey
      ((apply_health probe nodes).filter (fun n => n.healthy)) = some c := by
    rw [← get_best_candidate_eq]; exact hcand
  have hcmem : c ∈ apply_health probe nodes :=
    (List.mem_filter.mp (firstMinBy_mem nodeKey h1)).1
  have hch : c.healthy = true := by
    simpa using (List.mem_filter.mp (firstMinBy_mem nodeKey h1)).2
  have huniq' : (apply_health probe nodes).Pairwise
      (fun a b => a.name ≠ b.name) :=
    apply_health_pairwise probe nodes huniq
  have hlead : get_current_leader r.nodes =
      some { c with role := "leader" } := by
    rw [hnodes]
    exact get_current_leader_update_roles (apply_health probe nodes) c
      huniq' hcmem
  have hcand₂ : get_best_candidate r.nodes =
      some { c with role := "leader" } := by
    rw [hnodes]
    have hmap := get_best_candidate_map
      (fun node => if node.name = c.name then { node with role := "leader" }
        else { node with role := "replica" })
      (fun n => by by_cases h : n.name = c.name <;> simp [h])
      (fun n => by by_cases h : n.name = c.name <;> simp [h, nodeKey])
      (apply_health probe nodes)
    rw [hcand] at hmap
    rw [show update_roles (apply_health probe nodes) c.name =
      (apply_health probe nodes).map
        (fun node => if node.name = c.name then { node with role := "leader" }
          else { node with role := "replica" }) from rfl]
    rw [hmap]
    simp
  have hL₂ : get_current_leader (apply_health probe₂ r.nodes) =
      some { c with role := "leader" } := by rw [hsame]; exact hlead
  have hc₂ : get_best_candidate (apply_health probe₂ r.nodes) =
      some { c with role := "leader" } := by rw [hsame]; exact hcand₂
  have hLh₂ : ({ c with role := "leader" } : Node).healthy = true := hch
  by_cases hfb : fb = true
  · cases hfo : c.failover_order with
    | none =>
      have hcrash := run_cycle_crash fb cd probe₂ pok₂ rok₂ now₂ r.nodes
        r.last_promotion_time _ _ hL₂ hLh₂ hc₂ hfb (by simp [pyLt, hfo])
      rw [hcrash] at hrun₂
      cases hrun₂
    | some o =>
      refine promoted_none_of_no_better fb cd probe₂ pok₂ rok₂ now₂ r.nodes
        r.last_promotion_time r₂ _ hL₂ hLh₂ hrun₂ ?_
      intro c₂ hcc
      rw [hc₂] at hcc
      cases hcc
      exact Or.inr (by simp [pyLt, hfo])
  · refine promoted_none_of_no_better fb cd probe₂ pok₂ rok₂ now₂ r.nodes
      r.last_promotion_time r₂ _ hL₂ hLh₂ hrun₂ ?_
    intro c₂ hcc
    exact Or.inl (by simpa using hfb)

/-- Claim C9 (amended): two successive cycles with identical health
results, unique node names, and a healthy current leader after the first
cycle produce no promotion on the second cycle — provided the first cycle
was not cooldown-blocked and did not end in a failed promotion attempt
(in those two excluded situations the code does promote, or re-attempt,
on the second run; see the counterexample). -/
theorem claim_C9_idempotent_cycle (fb : Bool) (cd : Int)
    (probe pok rok : Node → Bool) (now : Int) (nodes : List Node) (lpt : Int)
    (r : CycleResult) (L : Node)
    (huniq : nodes.Pairwise (fun a b => a.name ≠ b.name))
    (hrun : run_cycle fb cd probe pok rok now nodes lpt = some r)
    (hblk : r.cooldown_blocked = false)
    (hok : r.promoted = none ∨ r.promotion_success = true)
    (hL : get_current_leader r.nodes = some L)
    (hLh : L.healthy = true)
    (probe₂ pok₂ rok₂ : Node → Bool) (now₂ : Int)
    (hsame : apply_health probe₂ r.nodes = r.nodes) :
    ∀ r₂, run_cycle fb cd probe₂ pok₂ rok₂ now₂ r.nodes r.last_promotion_time
      = some r₂ → r₂.promoted = none := by
  cases hbc : get_best_candidate (apply_health probe nodes) with
  | none =>
    simp only [run_cycle, hbc, decision_none_candidate] at hrun
    cases hrun
    intro r₂ hrun₂
    refine promoted_none_of_no_better fb cd probe₂ pok₂ rok₂ now₂ _ _
      r₂ L ?_ hLh hrun₂ ?_
    · rw [hsame]; exact hL
    · intro c₂ hcc
      rw [hsame] at hcc
      dsimp only at hcc
      rw [hbc] at hcc
      cases hcc
  | some c =>
    cases hcl : get_current_leader (apply_health probe nodes) with
    | none =>
      simp only [run_cycle, hcl, hbc] at hrun
      dsimp only [promotion_decision] at hrun
      by_cases hpok : pok c = true
      · rw [if_pos hpok] at hrun
        cases hrun
        exact second_cycle_after_success fb cd probe nodes c _ huniq hbc rfl
          probe₂ pok₂ rok₂ now₂ hsame
      · rw [if_neg hpok] at hrun
        cases hrun
        rcases hok with h | h <;> simp at h
    | some L₁ =>
      cases hlh : L₁.healthy with
      | false =>
        simp only [run_cycle, hcl, hbc] at hrun
        have hdec : promotion_decision fb cd now lpt (some L₁) (some c) =
            some (true, false, "현재 leader 비정상") := by
          simp [promotion_decision, hlh]
        rw [hdec] at hrun
        dsimp only at hrun
        by_cases hpok : pok c = true
        · rw [if_pos hpok] at hrun
          cases hrun
          exact second_cycle_after_success fb cd probe nodes c _ huniq hbc rfl
            probe₂ pok₂ rok₂ now₂ hsame
        · rw [if_neg hpok] at hrun
          cases hrun
          rcases hok with h | h <;> simp at h
      | true =>
        by_cases hfb : fb = true
        · cases hpy : pyLt c.failover_order L₁.failover_order with
          | none =>
            have hcrash := run_cycle_crash fb cd probe pok rok now nodes lpt
              L₁ c hcl hlh hbc hfb hpy
            rw [hcrash] at hrun
            cases hrun
          | some b =>
            cases b with
            | true =>
              by_cases hcd : now - lpt ≥ cd
              · simp only [run_cycle, hcl, hbc] at hrun
                have hdec : promotion_decision fb cd now lpt (some L₁)
                    (some c) =
                    some (true, false,
                      "failback: 우선순위가 더 높은 노드가 건강함") := by
                  simp [promotion_decision, hlh, hfb, hpy, hcd]
                rw [hdec] at hrun
                dsimp only at hrun
                by_cases hpok : pok c = true
                · rw [if_pos hpok] at hrun
                  cases hrun
                  exact second_cycle_after_success fb cd probe nodes c _
                    huniq hbc rfl probe₂ pok₂ rok₂ now₂ hsame
                · rw [if_neg hpok] at hrun
                  cases hrun
                  rcases hok with h | h <;> simp at h
              · simp only [run_cycle, hcl, hbc] at hrun
                have hdec : promotion_decision fb cd now lpt (some L₁)
                    (some c) = some (false, true, "") := by
                  simp [promotion_decision, hlh, hfb, hpy, hcd]
                rw [hdec] at hrun
                dsimp only at hrun
                cases hrun
                simp at hblk
            | false =>
              simp only [run_cycle, hcl, hbc] at hrun
              have hdec : promotion_decision fb cd now lpt (some L₁)
                  (some c) = some (false, false, "") := by
                simp [promotion_decision, hlh, hpy]
              rw [hdec] at hrun
              dsimp only at hrun
              cases hrun
              have hLL : L = L₁ := by
                dsimp only at hL
                rw [hcl] at hL
                cases hL
                rfl
              intro r₂ hrun₂
              refine promoted_none_of_no_better fb cd probe₂ pok₂ rok₂ now₂
                _ _ r₂ L ?_ hLh hrun₂ ?_
              · rw [hsame]
                dsimp only
                rw [hcl, hLL]
              · intro c₂ hcc
                rw [hsame] at hcc
                dsimp only at hcc
                rw [hbc] at hcc
                cases hcc
                exact Or.inr (by rw [hLL]; exact hpy)
        · simp only [run_cycle, hcl, hbc] at hrun
          have hdec : promotion_decision fb cd now lpt (some L₁) (some c) =
              some (false, false, "") := by
            simp [promotion_decision, hlh, hfb]
          rw [hdec] at hrun
          dsimp only at hrun
          cases hrun
          intro r₂ hrun₂
          refine promoted_none_of_no_better fb cd probe₂ pok₂ rok₂ now₂
            _ _ r₂ L ?_ hLh hrun₂ ?_
          · rw [hsame]; exact hL
          · intro c₂ hcc
            exact Or.inl (by simpa using hfb)

/-- Counterexample to C9 as stated: with leader `n1` (order 5) and
replica `n2` (order 1) both healthy, cooldown 30, clock 0, the first cycle
at time 29 is cooldown-blocked (no promotion, healthy unchanged leader,
unchanged priorities), the probes of both cycles return identical health,
and yet the second cycle at time 30 does promote. -/
theorem claim_C9_counterexample :
    (run_cycle true 30 (fun _ => true) (fun _ => true) (fun _ => true) 29
      [exNode "n1" (some 5) "leader" false,
       exNode "n2" (some 1) "replica" false] 0).map
      (fun r => ((get_current_leader r.nodes).map (fun l => l.healthy),
        apply_health (fun _ => true) r.nodes == r.nodes,
        r.promoted.isSome)) = some (some true, true, false) ∧
    ((run_cycle true 30 (fun _ => true) (fun _ => true) (fun _ => true) 29
      [exNode "n1" (some 5) "leader" false,
       exNode "n2" (some 1) "replica" false] 0).bind
      (fun r => run_cycle true 30 (fun _ => true) (fun _ => true)
        (fun _ => true) 30 r.nodes r.last_promotion_time)).map
      (fun r₂ => r₂.promoted.isSome) = some true := by
  decide

/-- Cluster used by the C9 witness: leader `n1` down, `n2` healthy. -/
def c9wNodes : List Node :=
  [exNode "n1" (some 1) "leader" false, exNode "n2" (some 2) "replica" false]

/-- First-cycle outcome of the C9 witness: successful emergency promotion
of `n2` at time 100. -/
def c9wR1 : CycleResult :=
  { nodes := [exNode "n1" (some 1) "replica" false,
              exNode "n2" (some 2) "leader" true]
    last_promotion_time := 100
    cooldown_blocked := false
    promoted := some (exNode "n2" (some 2) "replica" true)
    promotion_success := true
    reason := "현재 leader 비정상"
    reconf_results := [] }

/-- Second-cycle outcome of the C9 witness at time 105: nothing to do. -/
def c9wR2 : CycleResult :=
  { nodes := [exNode "n1" (some 1) "replica" false,
              exNode "n2" (some 2) "leader" true]
    last_promotion_time := 100
    cooldown_blocked := false
    promoted := none
    promotion_success := false
    reason := ""
    reconf_results := [] }

/-- Witness for the amended C9: after the successful promotion of `n2`,
the second cycle with the same probe promotes nothing. -/
theorem claim_C9_idempotent_cycle_witness : c9wR2.promoted = none :=
  claim_C9_idempotent_cycle true 30 (fun n => n.name != "n1")
    (fun _ => true) (fun _ => true) 100 c9wNodes 0 c9wR1
    (exNode "n2" (some 2) "leader" true)
    (by decide) (by decide) (by decide) (Or.inr (by decide)) (by decide)
    (by decide) (fun n => n.name != "n1") (fun _ => true) (fun _ => true) 105
    (by decide) c9wR2 (by decide)

/-! ### Missing `failover_order` (claim C10) -/

/-- Replace an absent `failover_order` by the explicit default 9999. -/
def fillOrder (n : Node) : Node :=
  { n with failover_order := some (n.failover_order.getD 9999) }

/-- The leader locator commutes with a per-node rewrite that keeps `role`
and the sort key. -/
theorem get_current_leader_map (f : Node → Node)
    (hr : ∀ n, (f n).role = n.role)
    (hk : ∀ n, nodeKey (f n) = nodeKey n) (l : List Node) :
    get_current_leader (l.map f) = (get_current_leader l).map f := by
  rw [get_current_leader_eq, get_current_leader_eq,
    filter_map_comm _ f l (fun a => by rw [hr]),
    firstMinBy_map nodeKey nodeKey f hk]

/-- When every key is the same, the first minimum is simply the head. -/
theorem firstMinBy_const (key : α → Int) (l : List α) (v : Int)
    (h : ∀ x ∈ l, key x = v) : firstMinBy key l = l.head? := by
  induction l with
  | nil => rfl
  | cons x xs ih =>
    simp only [firstMinBy]
    cases h' : firstMinBy key xs with
    | none => rfl
    | some m =>
      have hm : key m = v :=
        h m (List.mem_cons_of_mem x (firstMinBy_mem key h'))
      have hx : key x = v := h x (List.mem_cons_self x xs)
      dsimp only
      rw [hm, hx]
      simp

/-- Claim C10 (amended): a node with absent `failover_order` is ranked by
both selectors with effective priority 9999 — making the default explicit
changes neither selection — so it is selected over a node with an explicit
`failover_order` only if that explicit value is at least 9999 (it can tie
with an explicit 9999 and win by list order), and among several nodes all
missing `failover_order` the earliest in list order is selected. -/
theorem claim_C10_missing_order_default (nodes : List Node) :
    (get_best_candidate (nodes.map fillOrder) =
        (get_best_candidate nodes).map fillOrder ∧
      get_current_leader (nodes.map fillOrder) =
        (get_current_leader nodes).map fillOrder) ∧
    (∀ m, get_best_candidate nodes = some m → m.failover_order = none →
      ∀ e ∈ nodes, e.healthy = true →
        ∀ k : Int, e.failover_order = some k → 9999 ≤ k) ∧
    (∀ m, get_current_leader nodes = some m → m.failover_order = none →
      ∀ e ∈ nodes, e.role = "leader" →
        ∀ k : Int, e.failover_order = some k → 9999 ≤ k) ∧
    ((∀ n ∈ nodes, n.healthy = true → n.failover_order = none) →
      get_best_candidate nodes =
        (nodes.filter (fun n => n.healthy)).head?) ∧
    ((∀ n ∈ nodes, n.role = "leader" → n.failover_order = none) →
      get_current_leader nodes =
        (nodes.filter (fun n => n.role == "leader")).head?) := by
  refine ⟨⟨?_, ?_⟩, ?_, ?_, ?_, ?_⟩
  · exact get_best_candidate_map fillOrder (fun n => rfl)
      (fun n => by simp [fillOrder, nodeKey]) nodes
  · exact get_current_leader_map fillOrder (fun n => rfl)
      (fun n => by simp [fillOrder, nodeKey]) nodes
  · intro m hm hmo e he heh k hek
    have hmin := firstMinBy_min nodeKey
      (show firstMinBy nodeKey (nodes.filter (fun n => n.healthy)) = some m by
        rw [← get_best_candidate_eq]; exact hm)
      e (List.mem_filter.mpr ⟨he, by simp [heh]⟩)
    simpa [nodeKey, hmo, hek] using hmin
  · intro m hm hmo e he her k hek
    have hmin := firstMinBy_min nodeKey
      (show firstMinBy nodeKey
          (nodes.filter (fun n => n.role == "leader")) = some m by
        rw [← get_current_leader_eq]; exact hm)
      e (List.mem_filter.mpr ⟨he, by simp [her]⟩)
    simpa [nodeKey, hmo, hek] using hmin
  · intro hall
    rw [get_best_candidate_eq]
    refine firstMinBy_const nodeKey _ 9999 ?_
    intro x hx
    have hx' := List.mem_filter.mp hx
    simp [nodeKey, hall x hx'.1 (by simpa using hx'.2)]
  · intro hall
    rw [get_current_leader_eq]
    refine firstMinBy_const nodeKey _ 9999 ?_
    intro x hx
    have hx' := List.mem_filter.mp hx
    simp [nodeKey, hall x hx'.1 (by simpa using hx'.2)]

/-- Counterexample to C10 as stated: a healthy node with absent
`failover_order` is selected over a healthy node with the explicit value
9999 (which does not exceed 9999) because it comes first in list order. -/
theorem claim_C10_counterexample :
    get_best_candidate [exNode "m" none "replica" true,
      exNode "e" (some 9999) "replica" true] =
      some (exNode "m" none "replica" true) ∧
    (exNode "m" none "replica" true).failover_order = none ∧
    (exNode "e" (some 9999) "replica" true).failover_order = some 9999 ∧
    ¬ (9999 : Int) > 9999 := by
  decide

/-- Witness for the amended C10: among two healthy nodes both missing
`failover_order`, the selector picks the first in list order. -/
theorem claim_C10_missing_order_default_witness :
    get_best_candidate [exNode "m" none "replica" true,
      exNode "m2" none "replica" true] =
      ([exNode "m" none "replica" true,
        exNode "m2" none "replica" true].filter (fun n => n.healthy)).head? :=
  (claim_C10_missing_order_default _).2.2.2.1 (by decide)

end Msprm
